import Mathlib

/-!
Verification of the Law-Maker repository against its specification.

The repository's `src/main.py` contains the presentation layer (Tkinter GUI),
the level loader and the Janus-Prolog grading runner.  The embedded
rule-resolution engine described in the specification (Statement Parser,
Knowledge Base, Resolver, State Projector, Session Ingestion) is not part of
`src/main.py`; those components are modelled here directly from the
specification's contracts.  The grading comparison, `run_queries` and the
attempts-cap logic are embedded from `src/main.py`.
-/

namespace LawMaker

/-- An atom: an opaque case-sensitive identifier string, compared only by
exact equality. -/
abbrev Atom := String

/-- Modelled from the spec: a Rule is an ordered pair of a head atom and an
ordered sequence of body atoms (§3). -/
structure Rule where
  head : Atom
  body : List Atom
deriving DecidableEq

/-- Modelled from the spec: the Knowledge Base owns the fact set and the
ordered rule list (§3, §4.2). -/
structure KnowledgeBase where
  facts : List Atom
  rules : List Rule
deriving DecidableEq

/-- Modelled from the spec: exact-match membership test on the fact set
(§4.2). -/
def hasFact (kb : KnowledgeBase) (a : Atom) : Bool :=
  decide (a ∈ kb.facts)

/-- Modelled from the spec: all distinct rule bodies registered for a head,
in insertion order (§4.2). -/
def rulesWithHead (kb : KnowledgeBase) (h : Atom) : List (List Atom) :=
  (kb.rules.filter (fun r => r.head == h)).map (fun r => r.body)

/-- Modelled from the spec: fact insertion returns true iff the atom was not
already present; duplicates are not re-inserted (§4.2). -/
def KnowledgeBase.insertFact (kb : KnowledgeBase) (a : Atom) : Bool × KnowledgeBase :=
  if hasFact kb a then (false, kb)
  else (true, { kb with facts := kb.facts ++ [a] })

/-- Modelled from the spec: rule insertion with uniqueness over the
(head, body) pair, appending in first-introduction order (§4.2). -/
def KnowledgeBase.insertRule (kb : KnowledgeBase) (h : Atom) (b : List Atom) : Bool × KnowledgeBase :=
  if { head := h, body := b : Rule } ∈ kb.rules then (false, kb)
  else (true, { kb with rules := kb.rules ++ [{ head := h, body := b }] })

/-- Modelled from the spec: the derived world model — a lock flag, an
activation flag, a hazard-visibility flag and a stability counter bounded to
[0, 100] (§3, §4.4). -/
structure WorldState where
  doorLocked : Bool
  activated : Bool
  hazardVisible : Bool
  stability : Int
deriving DecidableEq

/-- Modelled from the spec: fixed decrease applied to stability when the
hazard atom is newly asserted (§4.4; the spec fixes only that the amount is
constant). -/
def hazardPenalty : Int := 20

/-- Modelled from the spec: fixed increase applied to stability when the
stabilizing atom is newly asserted (§4.4). -/
def stabilizeBonus : Int := 20

/-- Modelled from the spec: the smaller fixed stability penalty applied when
a submission fails (§4.5). -/
def submitPenalty : Int := 5

/-- Modelled from the spec: WorldState defaults at session start (§3 fixes
only that defaults exist; stability starts inside [0, 100]). -/
def initWorld : WorldState :=
  { doorLocked := true, activated := false, hazardVisible := false, stability := 100 }

/-- Modelled from the spec: the State Projector's fixed lookup table mapping
recognized atom names to WorldState mutations; unrecognized atoms mutate
nothing (§4.4).  Stability moves are clamped to the floor 0 and the ceiling
100. -/
def projectFact (w : WorldState) (a : Atom) : WorldState :=
  if a = "door_unlocked" then { w with doorLocked := false }
  else if a = "activated" then { w with activated := true }
  else if a = "hazard_summoned" then
    { w with hazardVisible := true, stability := max 0 (w.stability - hazardPenalty) }
  else if a = "stabilized" then
    { w with stability := min 100 (w.stability + stabilizeBonus) }
  else w

/-- Modelled from the spec: a game session owns the Knowledge Base and the
WorldState for its lifetime (§3). -/
structure Session where
  kb : KnowledgeBase
  world : WorldState
deriving DecidableEq

/-- Modelled from the spec: session start state. -/
def initSession : Session :=
  { kb := { facts := [], rules := [] }, world := initWorld }

/-- Modelled from the spec: session-level fact insertion — the State
Projector fires exactly on a successful new insertion, never on a duplicate
(§4.2, §4.4). -/
def Session.insertFact (s : Session) (a : Atom) : Bool × Session :=
  match s.kb.insertFact a with
  | (true, kb2) => (true, { kb := kb2, world := projectFact s.world a })
  | (false, _) => (false, s)

/-- Modelled from the spec: folding a sequence of fact assertions through the
session (used to state repeated-assertion properties). -/
def insertAll (s : Session) (atoms : List Atom) : Session :=
  atoms.foldl (fun t a => (t.insertFact a).2) s

/-- The stability invariant of §3: the counter is bounded to [0, 100]. -/
def stabilityInv (w : WorldState) : Prop :=
  0 ≤ w.stability ∧ w.stability ≤ 100

/-- Short-circuit conjunction over the subgoals of one rule body, given an
evaluator for single goals; `none` propagates evaluator exhaustion.
Modelled from the spec (§4.3): body evaluation stops at the first failing
subgoal. -/
def allGoalsF (q : Atom → Option Bool) : List Atom → Option Bool
  | [] => some true
  | g :: gs =>
    match q g with
    | none => none
    | some false => some false
    | some true => allGoalsF q gs

/-- First-match-wins disjunction over the alternative bodies for one head.
Modelled from the spec (§4.3): later alternative rules are not tried once
one body fully succeeds. -/
def anyBodyF (q : Atom → Option Bool) : List (List Atom) → Option Bool
  | [] => some false
  | b :: bs =>
    match allGoalsF q b with
    | none => none
    | some true => some true
    | some false => anyBodyF q bs

/-- Modelled from the spec: the Resolver (§4.3), written with explicit fuel.
The `visited` list is the set of goals currently being resolved on the
active call path; a goal re-entered on that path fails instead of recursing
(the mandated cycle guard).  `none` means the fuel ran out — the sufficiency
theorem below shows this never happens at `fuelBound`. -/
def queryF : Nat → KnowledgeBase → List Atom → Atom → Option Bool
  | 0, _, _, _ => none
  | n + 1, kb, visited, goal =>
    if goal ∈ visited then some false
    else if hasFact kb goal then some true
    else anyBodyF (queryF n kb (goal :: visited)) (rulesWithHead kb goal)

/-- Fuel sufficient for any resolution: one unit per rule of the knowledge
base plus one. -/
def fuelBound (kb : KnowledgeBase) : Nat := kb.rules.length + 1

/-- Modelled from the spec: the Resolver's entry point
`query(goal : Atom) → bool` (§4.3); an unresolvable goal returns false. -/
def query (kb : KnowledgeBase) (goal : Atom) : Bool :=
  (queryF (fuelBound kb) kb [] goal).getD false

/-- The distinct heads of the knowledge base's rules. -/
def ruleHeads (kb : KnowledgeBase) : Finset Atom :=
  (kb.rules.map Rule.head).toFinset

/-- Modelled from the spec: a clause is either a fact or a rule (§4.1). -/
inductive Clause where
  | fact (a : Atom)
  | rule (head : Atom) (body : List Atom)
deriving DecidableEq

/-- Split a character list at every occurrence of a separator character,
keeping empty segments (the behavior of splitting text on newlines or
commas). -/
def splitListOn (c : Char) : List Char → List (List Char)
  | [] => [[]]
  | x :: xs =>
    if x = c then [] :: splitListOn c xs
    else
      match splitListOn c xs with
      | [] => [[x]]
      | y :: ys => (x :: y) :: ys

/-- Trim leading and trailing whitespace from a string. -/
def trimStr (s : String) : String :=
  String.mk (((s.toList.dropWhile Char.isWhitespace).reverse.dropWhile Char.isWhitespace).reverse)

/-- Split a string on a separator character. -/
def splitOnChar (c : Char) (s : String) : List String :=
  (splitListOn c s.toList).map String.mk

/-- Modelled from the spec: strip one trailing period if present, then trim
again (§4.1). -/
def stripPeriod (t : String) : String :=
  match t.toList.getLast? with
  | some '.' => trimStr (String.mk t.toList.dropLast)
  | _ => t

/-- Split a character list at the first occurrence of the two-character
implication marker, or return `none` when the marker does not occur. -/
def splitFirstMarker : List Char → Option (List Char × List Char)
  | [] => none
  | x :: xs =>
    if x = ':' then
      match xs with
      | '-' :: rest => some ([], rest)
      | _ =>
        match splitFirstMarker xs with
        | none => none
        | some (h, b) => some (x :: h, b)
    else
      match splitFirstMarker xs with
      | none => none
      | some (h, b) => some (x :: h, b)

/-- Modelled from the spec: classify one trimmed, period-stripped line — split
on the first occurrence of the implication marker into head and body, the
body splitting on commas into trimmed subgoal atoms; otherwise the whole
line is a single fact atom (§4.1). -/
def parseClause (t : String) : Clause :=
  match splitFirstMarker t.toList with
  | none => Clause.fact t
  | some (h, b) =>
      Clause.rule (trimStr (String.mk h))
        ((splitListOn ',' b).map (fun sub => trimStr (String.mk sub)))

/-- Modelled from the spec: split submitted text on newlines, discard blank
lines after trimming, and classify each remaining line (§4.1). -/
def parse (text : String) : List Clause :=
  (splitOnChar '\n' text).filterMap (fun line =>
    let t := trimStr line
    if t = "" then none
    else some (parseClause (stripPeriod t)))

/-- Modelled from the spec: §4.5 admits an exception during insertion without
fixing its source; the structurally degenerate case hinted at in §4.1 is
modelled as a clause carrying an empty atom, which raises.  Well-formed
facts run through session insertion (and hence the State Projector). -/
def insertClauseE (s : Session) (c : Clause) : Except String Session :=
  match c with
  | Clause.fact a =>
      if a = "" then Except.error "degenerate clause"
      else Except.ok (s.insertFact a).2
  | Clause.rule h b =>
      if h = "" ∨ "" ∈ b then Except.error "degenerate clause"
      else Except.ok { s with kb := (s.kb.insertRule h b).2 }

/-- Modelled from the spec: the smaller fixed stability penalty applied to
the session when a submission fails, clamped at 0 (§4.5). -/
def penalize (s : Session) : Session :=
  { s with world := { s.world with stability := max 0 (s.world.stability - submitPenalty) } }

/-- Modelled from the spec: insert parsed clauses one by one; on the first
failure return `(false, message)` after the stability penalty, keeping every
clause inserted before the failure (partial application, §4.5). -/
def submitClauses (s : Session) : List Clause → (Bool × String) × Session
  | [] => ((true, "submission accepted"), s)
  | c :: cs =>
    match insertClauseE s c with
    | Except.error e => ((false, e), penalize s)
    | Except.ok s2 => submitClauses s2 cs

/-- Modelled from the spec: the session ingestion entry point
`submit(text) → (ok, message)` (§4.5). -/
def submit (s : Session) (text : String) : (Bool × String) × Session :=
  submitClauses s (parse text)

/-- The cyclic two-rule knowledge base: `r :- s.` and `s :- r.`, no facts. -/
def kbCycle : KnowledgeBase :=
  { facts := [], rules := [{ head := "r", body := ["s"] }, { head := "s", body := ["r"] }] }

/-- Knowledge base with rule `r :- a, b.` and only fact `a`. -/
def kbConjA : KnowledgeBase :=
  { facts := ["a"], rules := [{ head := "r", body := ["a", "b"] }] }

/-- Knowledge base with rule `r :- a, b.` and facts `a` and `b`. -/
def kbConjAB : KnowledgeBase :=
  { facts := ["a", "b"], rules := [{ head := "r", body := ["a", "b"] }] }

/-- The result enum of `src/main.py` (`GameResult`). -/
inductive GameResult where
  | success
  | syntaxError
  | wrongResults
  | prologError
deriving DecidableEq

/-- A Prolog query with expected results (`Query` dataclass in
`src/main.py`). -/
structure Query where
  query : String
  expected : List String
  description : String
deriving DecidableEq

/-- One per-query entry of the results dictionary built by
`JanusPrologRunner.run_queries` (`src/main.py` lines 391-396 and 402-408). -/
structure QueryResult where
  query : String
  expected : List String
  actual : List String
  error : Option String
  correct : Bool
deriving DecidableEq

/-- The second component returned by `run_queries`: either a top-level error
dictionary or the per-query results dictionary. -/
inductive RunDetails where
  | failure (msg : String)
  | results (rs : List QueryResult)
deriving DecidableEq

/-- The comparison of `src/main.py` lines 383-389: an empty expected list (or
exactly `['false']`) means the query must fail, i.e. produce no results;
otherwise the stringified actual and expected results are compared as sets.
Results are modelled as strings, so Python's `str` is the identity. -/
def gradeExpected (expected actual : List String) : Bool :=
  if expected = [] ∨ expected = ["false"] then decide (actual = [])
  else decide (actual.toFinset = expected.toFinset)

/-- The per-query loop body of `run_queries` (`src/main.py` lines 333-409).
The janus solution-collection block (lines 335-380) talks to the external
Prolog runtime and is abstracted as `evalQ`, which either yields the
collected `actual_results` or raises; the surrounding `try` of line 334
turns a raise into an entry with empty actuals, the error message, and
`correct = False` (lines 401-409). -/
def evalOne (evalQ : Nat → Except String (List String)) (i : Nat) (q : Query) : QueryResult :=
  match evalQ i with
  | Except.ok actual =>
      { query := q.query, expected := q.expected, actual := actual,
        error := none, correct := gradeExpected q.expected actual }
  | Except.error e =>
      { query := q.query, expected := q.expected, actual := [],
        error := some e, correct := false }

/-- The full per-query results list built by the loop of `run_queries`. -/
def runResults (evalQ : Nat → Except String (List String)) (qs : List Query) : List QueryResult :=
  qs.enum.map (fun p => evalOne evalQ p.1 p.2)

/-- The unavailability message of `src/main.py` lines 322-324. -/
def unavailableMsg : String :=
  "Janus SWI-Prolog not available. Install with: pip install janus_swi"

/-- `JanusPrologRunner.run_queries` (`src/main.py` lines 320-417).
`available` is `self.prolog_available`; `consult` is the outcome of loading
the player's code (line 328, raising into the outer handler of line 416);
`evalQ` abstracts the janus evaluation of each query.  The function returns
`SUCCESS` iff every per-query entry is correct, `WRONG_RESULTS` otherwise,
and `PROLOG_ERROR` with an error dictionary when the backend is unavailable
or loading raises. -/
def runQueries (available : Bool) (consult : Except String Unit)
    (evalQ : Nat → Except String (List String)) (qs : List Query) :
    GameResult × RunDetails :=
  if available = false then
    (GameResult.prologError, RunDetails.failure unavailableMsg)
  else
    match consult with
    | Except.error e => (GameResult.prologError, RunDetails.failure ("Prolog error: " ++ e))
    | Except.ok _ =>
      let rs := runResults evalQ qs
      if rs.all (fun r => r.correct) then (GameResult.success, RunDetails.results rs)
      else (GameResult.wrongResults, RunDetails.results rs)

/-- Default entry for total indexed access into a results list. -/
def qrDefault : QueryResult :=
  { query := "", expected := [], actual := [], error := none, correct := false }

/-- Concrete query list used to witness the runner theorems. -/
def qsPair : List Query :=
  [{ query := "p(X)", expected := ["x"], description := "" },
   { query := "q(X)", expected := ["y"], description := "" }]

/-- Concrete evaluation in which the second query raises. -/
def evalQBoom : Nat → Except String (List String) :=
  fun i => if i = 0 then Except.ok ["x"] else Except.error "boom"

/-- The attempts-relevant state of `LawMakerGUI`: the `attempts_remaining`
counter (`src/main.py` line 437), carried as an integer so that
non-negativity is a real property. -/
structure GuiState where
  attempts_remaining : Int
deriving DecidableEq

/-- `LawMakerGUI.__init__` sets `attempts_remaining = 3`
(`src/main.py` line 437). -/
def initGui : GuiState := { attempts_remaining := 3 }

/-- The session events that touch `attempts_remaining`: a successful
`load_level` (line 667) and a test run whose results are displayed
(`test_solution` line 731 guarding, `display_test_results` line 809
decrementing). -/
inductive GuiEvent where
  | loadLevel
  | testAndDisplay
deriving DecidableEq

/-- One step of the attempts state machine: `load_level` resets the counter
to 3 (`src/main.py` line 667); `test_solution` refuses to run when
`attempts_remaining <= 0` (line 731) and otherwise the displayed test result
decrements the counter by exactly one (line 809). -/
def guiStep (s : GuiState) : GuiEvent → GuiState
  | GuiEvent.loadLevel => { attempts_remaining := 3 }
  | GuiEvent.testAndDisplay =>
      if s.attempts_remaining ≤ 0 then s
      else { attempts_remaining := s.attempts_remaining - 1 }

/-- A level session: the event sequence folded from the initial GUI state. -/
def guiRun (evs : List GuiEvent) : GuiState :=
  evs.foldl guiStep initGui

lemma allGoalsF_isSome (q : Atom → Option Bool) (h : ∀ g, (q g).isSome = true) :
    ∀ gs, (allGoalsF q gs).isSome = true := by
  intro gs
  induction gs with
  | nil => rfl
  | cons g gs ih =>
    have hg := h g
    cases hq : q g with
    | none => rw [hq] at hg; simp at hg
    | some b =>
      cases b with
      | false => simp [allGoalsF, hq]
      | true => simp [allGoalsF, hq, ih]

lemma anyBodyF_isSome (q : Atom → Option Bool) (h : ∀ g, (q g).isSome = true) :
    ∀ bs, (anyBodyF q bs).isSome = true := by
  intro bs
  induction bs with
  | nil => rfl
  | cons b bs ih =>
    have hb := allGoalsF_isSome q h b
    cases hq : allGoalsF q b with
    | none => rw [hq] at hb; simp at hb
    | some v =>
      cases v with
      | false => simp [anyBodyF, hq, ih]
      | true => simp [anyBodyF, hq]

lemma mem_ruleHeads_of_rulesWithHead_ne_nil (kb : KnowledgeBase) (g : Atom)
    (h : rulesWithHead kb g ≠ []) : g ∈ ruleHeads kb := by
  unfold rulesWithHead at h
  cases hl : kb.rules.filter (fun r => r.head == g) with
  | nil => rw [hl] at h; simp at h
  | cons r rs =>
    have hr : r ∈ kb.rules.filter (fun r => r.head == g) := by
      rw [hl]; exact List.mem_cons_self r rs
    have hmem := List.mem_filter.mp hr
    have hhead : r.head = g := by
      have := hmem.2
      simpa using this
    unfold ruleHeads
    rw [List.mem_toFinset]
    exact hhead ▸ List.mem_map_of_mem Rule.head hmem.1

lemma queryF_isSome_of_lt :
    ∀ (fuel : Nat) (kb : KnowledgeBase) (vis : List Atom) (g : Atom),
      ((ruleHeads kb).filter (fun a => a ∉ vis)).card < fuel →
      (queryF fuel kb vis g).isSome = true := by
  intro fuel
  induction fuel with
  | zero => intro kb vis g h; exact absurd h (Nat.not_lt_zero _)
  | succ n ih =>
    intro kb vis g h
    by_cases hv : g ∈ vis
    · simp [queryF, hv]
    · by_cases hf : hasFact kb g
      · simp [queryF, hv, hf]
      · have hred : queryF (n + 1) kb vis g
            = anyBodyF (queryF n kb (g :: vis)) (rulesWithHead kb g) := by
          simp [queryF, hv, hf]
        rw [hred]
        cases hr : rulesWithHead kb g with
        | nil => rfl
        | cons b bs =>
          apply anyBodyF_isSome
          intro g2
          apply ih
          have hgh : g ∈ ruleHeads kb := by
            apply mem_ruleHeads_of_rulesWithHead_ne_nil kb g
            rw [hr]; simp
          have hsplit : (ruleHeads kb).filter (fun a => a ∉ g :: vis)
              = ((ruleHeads kb).filter (fun a => a ∉ vis)).erase g := by
            ext a
            simp only [Finset.mem_filter, Finset.mem_erase, List.mem_cons]
            constructor
            · rintro ⟨ha, hno⟩
              push_neg at hno
              exact ⟨hno.1, ha, hno.2⟩
            · rintro ⟨hne, ha, hnv⟩
              refine ⟨ha, ?_⟩
              push_neg
              exact ⟨hne, hnv⟩
          rw [hsplit]
          have hmem : g ∈ (ruleHeads kb).filter (fun a => a ∉ vis) :=
            Finset.mem_filter.mpr ⟨hgh, hv⟩
          have hcard := Finset.card_erase_of_mem hmem
          have hpos : 0 < ((ruleHeads kb).filter (fun a => a ∉ vis)).card :=
            Finset.card_pos.mpr ⟨g, hmem⟩
          omega

lemma queryF_fuelBound_isSome (kb : KnowledgeBase) (g : Atom) :
    (queryF (fuelBound kb) kb [] g).isSome = true := by
  apply queryF_isSome_of_lt
  have h1 : ((ruleHeads kb).filter (fun a => a ∉ ([] : List Atom))).card ≤ (ruleHeads kb).card :=
    Finset.card_filter_le _ _
  have h2 : (ruleHeads kb).card ≤ (kb.rules.map Rule.head).length :=
    (kb.rules.map Rule.head).toFinset_card_le
  have h3 : (kb.rules.map Rule.head).length = kb.rules.length := List.length_map _ _
  unfold fuelBound
  omega

lemma hasFact_session_insertFact (s : Session) (a : Atom) :
    hasFact (s.insertFact a).2.kb a = true := by
  by_cases h : a ∈ s.kb.facts
  · simp [Session.insertFact, KnowledgeBase.insertFact, hasFact, h]
  · simp [Session.insertFact, KnowledgeBase.insertFact, hasFact, h]

lemma session_insertFact_of_hasFact (s : Session) (a : Atom)
    (h : hasFact s.kb a = true) : s.insertFact a = (false, s) := by
  simp [Session.insertFact, KnowledgeBase.insertFact, h]

/-- Claim C1: with rules `r :- s.` and `s :- r.` and no base facts, the
resolver terminates on `query(r)` within its fuel bound (the cycle guard
fails a goal re-entered on the active call path) and returns `false`. -/
theorem cycle_query_terminates_false :
    queryF (fuelBound kbCycle) kbCycle [] "r" = some false ∧ query kbCycle "r" = false := by
  constructor <;> decide

/-- Claim C2: with rule `r :- a, b.` and only fact `a`, `query(r)` is false;
after also asserting `b`, `query(r)` is true — a head succeeds only when
every subgoal of some body recursively succeeds. -/
theorem conjunction_correctness :
    query kbConjA "r" = false ∧ query kbConjAB "r" = true := by
  constructor <;> decide

/-- Claim C3: fact insertion is idempotent — after inserting an atom twice,
`hasFact` is true, the second call returns false, and the second call
changes nothing (so the State Projector fires at most once for the atom). -/
theorem insertFact_idempotent (s : Session) (a : Atom) :
    hasFact ((s.insertFact a).2.insertFact a).2.kb a = true
      ∧ (((s.insertFact a).2).insertFact a).1 = false
      ∧ ((s.insertFact a).2.insertFact a).2 = (s.insertFact a).2 := by
  have hafter := hasFact_session_insertFact s a
  have h2 := session_insertFact_of_hasFact _ a hafter
  refine ⟨?_, ?_, ?_⟩
  · rw [h2]; exact hafter
  · rw [h2]
  · rw [h2]

lemma stabilityInv_projectFact (w : WorldState) (a : Atom) (h : stabilityInv w) :
    stabilityInv (projectFact w a) := by
  obtain ⟨h0, h1⟩ := h
  unfold projectFact stabilityInv
  split_ifs <;> refine ⟨?_, ?_⟩ <;> (try simp [hazardPenalty, stabilizeBonus]) <;> omega

lemma stabilityInv_insertFact (s : Session) (a : Atom) (h : stabilityInv s.world) :
    stabilityInv (s.insertFact a).2.world := by
  by_cases hf : a ∈ s.kb.facts
  · simpa [Session.insertFact, KnowledgeBase.insertFact, hasFact, hf] using h
  · simp [Session.insertFact, KnowledgeBase.insertFact, hasFact, hf]
    exact stabilityInv_projectFact s.world a h

lemma stabilityInv_insertAll : ∀ (atoms : List Atom) (s : Session), stabilityInv s.world →
    stabilityInv (insertAll s atoms).world := by
  intro atoms
  induction atoms with
  | nil => intro s h; exact h
  | cons a as ih =>
    intro s h
    have hstep : insertAll s (a :: as) = insertAll (s.insertFact a).2 as := rfl
    rw [hstep]
    exact ih _ (stabilityInv_insertFact s a h)

lemma stabilityInv_penalize (s : Session) (h : stabilityInv s.world) :
    stabilityInv (penalize s).world := by
  obtain ⟨h0, h1⟩ := h
  unfold penalize stabilityInv
  constructor
  · exact le_max_left 0 _
  · simp only [submitPenalty]
    omega

/-- Claim C4: the stability counter stays within [0, 100] under every
operation — each State Projector mutation clamps at the floor 0 and the
ceiling 100, any sequence of fact assertions preserves the bounds, and so
does the submit-failure penalty. -/
theorem stability_within_bounds :
    (∀ (w : WorldState) (a : Atom), stabilityInv w → stabilityInv (projectFact w a))
      ∧ (∀ (s : Session) (atoms : List Atom), stabilityInv s.world →
          stabilityInv (insertAll s atoms).world)
      ∧ (∀ s : Session, stabilityInv s.world → stabilityInv (penalize s).world) :=
  ⟨stabilityInv_projectFact, fun s atoms h => stabilityInv_insertAll atoms s h,
    stabilityInv_penalize⟩

/-- Witness for C4: the bounds hold concretely after hazard and stabilize
assertions from the initial session and after a failed-submission penalty. -/
theorem stability_within_bounds_witness :
    stabilityInv (projectFact initWorld "hazard_summoned")
      ∧ stabilityInv (insertAll initSession
          ["hazard_summoned", "stabilized", "hazard_summoned"]).world
      ∧ stabilityInv (penalize initSession).world :=
  ⟨stability_within_bounds.1 initWorld "hazard_summoned" ⟨by decide, by decide⟩,
    stability_within_bounds.2.1 initSession
      ["hazard_summoned", "stabilized", "hazard_summoned"] ⟨by decide, by decide⟩,
    stability_within_bounds.2.2 initSession ⟨by decide, by decide⟩⟩

/-- Claim C5: partial application on submit failure — if a well-formed fact
clause is followed by a clause whose insertion raises, the submission
returns `(false, message)` and the fact inserted before the failure is still
present in the Knowledge Base (no transactional rollback). -/
theorem submit_partial_application (s : Session) (a : Atom) (c : Clause) (e : String)
    (ha : a ≠ "")
    (hc : insertClauseE (s.insertFact a).2 c = Except.error e) :
    (submitClauses s [Clause.fact a, c]).1.1 = false
      ∧ hasFact (submitClauses s [Clause.fact a, c]).2.kb a = true := by
  have h1 : insertClauseE s (Clause.fact a) = Except.ok (s.insertFact a).2 := by
    simp [insertClauseE, ha]
  have hres : submitClauses s [Clause.fact a, c]
      = ((false, e), penalize (s.insertFact a).2) := by
    simp [submitClauses, h1, hc]
  rw [hres]
  exact ⟨rfl, hasFact_session_insertFact s a⟩

/-- Witness for C5: submitting the block `"a.\n:- x"` (a well-formed fact
line followed by a line whose insertion raises on its empty head) returns
false while the fact `a` remains in the Knowledge Base. -/
theorem submit_partial_application_witness :
    (submit initSession "a.\n:- x").1.1 = false
      ∧ hasFact (submit initSession "a.\n:- x").2.kb "a" = true := by
  have hp : parse "a.\n:- x" = [Clause.fact "a", Clause.rule "" ["x"]] := by decide
  have h := submit_partial_application initSession "a" (Clause.rule "" ["x"])
      "degenerate clause" (by decide) (by rfl)
  unfold submit
  rw [hp]
  exact h

/-- Claim C6: the Resolver never raises — for every knowledge base and goal,
resolution completes within the fuel bound with a boolean verdict, and
`query` returns exactly that verdict (an unresolvable goal yields false
rather than a fault). -/
theorem query_never_raises (kb : KnowledgeBase) (g : Atom) :
    ∃ b : Bool, queryF (fuelBound kb) kb [] g = some b ∧ query kb g = b := by
  have h := queryF_fuelBound_isSome kb g
  cases hq : queryF (fuelBound kb) kb [] g with
  | none => rw [hq] at h; simp at h
  | some b => exact ⟨b, rfl, by simp [query, hq]⟩

/-- Claim C7: the grading comparison marks a query correct iff, when the
expected list is empty or exactly `['false']`, the actual result list is
empty, and otherwise the actual and expected results agree as sets, ignoring
order and multiplicity. -/
theorem grading_comparison (expected actual : List String) :
    gradeExpected expected actual = true
      ↔ (if expected = [] ∨ expected = ["false"] then actual = []
         else ∀ x, x ∈ actual ↔ x ∈ expected) := by
  by_cases h : expected = [] ∨ expected = ["false"] <;>
    simp [gradeExpected, h, Finset.ext_iff]

lemma runResults_length (evalQ : Nat → Except String (List String)) (qs : List Query) :
    (runResults evalQ qs).length = qs.length := by
  simp [runResults]

lemma runResults_getD_error (evalQ : Nat → Except String (List String)) (qs : List Query)
    (i : Nat) (e : String) (hi : i < qs.length) (he : evalQ i = Except.error e) :
    ((runResults evalQ qs).getD i qrDefault).correct = false
      ∧ ((runResults evalQ qs).getD i qrDefault).error = some e := by
  have hlen : i < (runResults evalQ qs).length := by
    rw [runResults_length]; exact hi
  rw [List.getD_eq_getElem _ _ hlen]
  simp only [runResults, List.getElem_map, List.getElem_enum]
  simp [evalOne, he]

/-- Claim C8: `run_queries` always returns a `(GameResult, details)` value
and never propagates an exception — an unavailable backend yields
`(PROLOG_ERROR, error)`, a raise while loading the Prolog code yields
`(PROLOG_ERROR, error)`, and a raise while evaluating one query produces a
per-query entry marked incorrect while every query still gets an entry. -/
theorem runQueries_no_uncaught_fault
    (consult : Except String Unit) (evalQ : Nat → Except String (List String))
    (qs : List Query) :
    (runQueries false consult evalQ qs
        = (GameResult.prologError, RunDetails.failure unavailableMsg))
      ∧ (∀ e, runQueries true (Except.error e) evalQ qs
          = (GameResult.prologError, RunDetails.failure ("Prolog error: " ++ e)))
      ∧ ((runResults evalQ qs).length = qs.length)
      ∧ (∀ i e, i < qs.length → evalQ i = Except.error e →
          ((runResults evalQ qs).getD i qrDefault).correct = false
            ∧ ((runResults evalQ qs).getD i qrDefault).error = some e) := by
  refine ⟨by simp [runQueries], fun e => by simp [runQueries],
    runResults_length evalQ qs, ?_⟩
  intro i e hi he
  exact runResults_getD_error evalQ qs i e hi he

/-- Witness for C8: with a two-query level whose second query raises, the
second entry is marked incorrect with the raised message recorded. -/
theorem runQueries_no_uncaught_fault_witness :
    ((runResults evalQBoom qsPair).getD 1 qrDefault).correct = false
      ∧ ((runResults evalQBoom qsPair).getD 1 qrDefault).error = some "boom" :=
  (runQueries_no_uncaught_fault (Except.ok ()) evalQBoom qsPair).2.2.2 1 "boom"
    (by decide) (by rfl)

lemma runQueries_fst_ok (evalQ : Nat → Except String (List String)) (qs : List Query) :
    (runQueries true (Except.ok ()) evalQ qs).1
      = if (runResults evalQ qs).all (fun r => r.correct) then GameResult.success
        else GameResult.wrongResults := by
  unfold runQueries
  by_cases h : (runResults evalQ qs).all (fun r => r.correct) <;> simp [h]

/-- Claim C10: when the Prolog code loads without error, `run_queries`
returns SUCCESS iff every per-query entry is marked correct and
WRONG_RESULTS otherwise; a raise while evaluating any query forces
WRONG_RESULTS. -/
theorem runQueries_success_iff_all_correct
    (evalQ : Nat → Except String (List String)) (qs : List Query) :
    ((runQueries true (Except.ok ()) evalQ qs).1 = GameResult.success
        ↔ (runResults evalQ qs).all (fun r => r.correct) = true)
      ∧ ((runQueries true (Except.ok ()) evalQ qs).1 = GameResult.wrongResults
        ↔ ¬ (runResults evalQ qs).all (fun r => r.correct) = true)
      ∧ (∀ i e, i < qs.length → evalQ i = Except.error e →
          (runQueries true (Except.ok ()) evalQ qs).1 = GameResult.wrongResults) := by
  have hfst := runQueries_fst_ok evalQ qs
  by_cases hall : (runResults evalQ qs).all (fun r => r.correct) = true
  · rw [hall, if_pos rfl] at hfst
    refine ⟨by simp [hfst, hall], by simp [hfst, hall], ?_⟩
    intro i e hi he
    exfalso
    have hentry := runResults_getD_error evalQ qs i e hi he
    have hlen : i < (runResults evalQ qs).length := by
      rw [runResults_length]; exact hi
    have hmem : (runResults evalQ qs).getD i qrDefault ∈ runResults evalQ qs := by
      rw [List.getD_eq_getElem _ _ hlen]
      exact List.getElem_mem hlen
    have hc := (List.all_eq_true.mp hall) _ hmem
    rw [hentry.1] at hc
    simp at hc
  · have hfalse : (runResults evalQ qs).all (fun r => r.correct) = false := by
      simpa using hall
    rw [hfalse] at hfst
    simp at hfst
    refine ⟨by simp [hfst, hall], by simp [hfst, hall], ?_⟩
    intro i e hi he
    exact hfst

/-- Witness for C10: the two-query level whose second query raises comes back
as WRONG_RESULTS. -/
theorem runQueries_success_iff_all_correct_witness :
    (runQueries true (Except.ok ()) evalQBoom qsPair).1 = GameResult.wrongResults :=
  (runQueries_success_iff_all_correct evalQBoom qsPair).2.2 1 "boom" (by decide) (by rfl)

lemma guiStep_nonneg (s : GuiState) (e : GuiEvent) (h : 0 ≤ s.attempts_remaining) :
    0 ≤ (guiStep s e).attempts_remaining := by
  cases e with
  | loadLevel => simp [guiStep]
  | testAndDisplay =>
    unfold guiStep
    split_ifs with h2
    · exact h
    · simp; omega

lemma guiFold_nonneg : ∀ (evs : List GuiEvent) (s : GuiState), 0 ≤ s.attempts_remaining →
    0 ≤ (evs.foldl guiStep s).attempts_remaining := by
  intro evs
  induction evs with
  | nil => intro s h; exact h
  | cons e es ih => intro s h; exact ih _ (guiStep_nonneg s e h)

/-- Claim C9: each loaded level starts with `attempts_remaining = 3`, every
displayed test result decrements the counter by exactly one, a test is
refused (state unchanged) when the counter is at or below zero, and along
any event sequence of a level session the counter never becomes negative. -/
theorem attempts_cap :
    initGui.attempts_remaining = 3
      ∧ (∀ s : GuiState, (guiStep s GuiEvent.loadLevel).attempts_remaining = 3)
      ∧ (∀ s : GuiState, 0 < s.attempts_remaining →
          (guiStep s GuiEvent.testAndDisplay).attempts_remaining = s.attempts_remaining - 1)
      ∧ (∀ s : GuiState, s.attempts_remaining ≤ 0 → guiStep s GuiEvent.testAndDisplay = s)
      ∧ (∀ evs : List GuiEvent, 0 ≤ (guiRun evs).attempts_remaining) := by
  refine ⟨rfl, fun s => rfl, ?_, ?_, ?_⟩
  · intro s h
    unfold guiStep
    rw [if_neg (by omega)]
  · intro s h
    unfold guiStep
    rw [if_pos h]
  · intro evs
    exact guiFold_nonneg evs initGui (by decide)

/-- Witness for C9: a fresh level allows a test that consumes one attempt, an
exhausted level refuses the test, and four tests after a load leave the
counter non-negative. -/
theorem attempts_cap_witness :
    (guiStep { attempts_remaining := 3 } GuiEvent.testAndDisplay).attempts_remaining
        = ({ attempts_remaining := 3 } : GuiState).attempts_remaining - 1
      ∧ guiStep { attempts_remaining := 0 } GuiEvent.testAndDisplay
          = { attempts_remaining := 0 }
      ∧ 0 ≤ (guiRun [GuiEvent.loadLevel, GuiEvent.testAndDisplay, GuiEvent.testAndDisplay,
            GuiEvent.testAndDisplay, GuiEvent.testAndDisplay]).attempts_remaining :=
  ⟨attempts_cap.2.2.1 { attempts_remaining := 3 } (by decide),
    attempts_cap.2.2.2.1 { attempts_remaining := 0 } (by decide),
    attempts_cap.2.2.2.2 _⟩

end LawMaker
